import Mathlib

/-!
Verification of the HardenedBSD segvguard subsystem
(`sys/hardenedbsd/hbsd_pax_segvguard.c`).

The development shallowly embeds the crash-tracking table, the policy-flag
resolver and the two guard entry points as pure Lean functions.  Kernel
state that the C code reaches through pointers (the per-bucket linked
lists, the thread credentials, the vnode attributes) is passed explicitly:

* machine integers become `Nat`/`Int`, with `% 2^32` where the C code
  relies on `uint32_t` wrap-around (the FNV hash);
* the fallible kernel services (`malloc`, `vn_lock`/`VOP_GETATTR`) become
  an explicit `allocOk : Bool` argument and an `Option Vattr` field;
* a vnode models exactly the two pieces of data the file reads from it:
  the attribute-retrieval result and the mount point name;
* `printf`/`pax_log_segvguard` output is modelled as a list of `SegvLog`
  events returned by the entry points;
* the hash table is a `List` of 512 buckets, each a list of records; the
  C code's update-through-the-returned-pointer is modelled by replacing
  the first matching record of its bucket.
-/

namespace HbsdSegvguard

set_option maxRecDepth 100000

/-! ### Constants

The values `PAX_FEATURE_DISABLED`/`OPTIN`/`OPTOUT`/`FORCE_ENABLED` are the
four status values from `hbsd_pax_internal.h`; the source indexes
`pax_status_str[pax_segvguard_status]` with them, fixing them to the
small contiguous values 0..3.  `PAX_NOTE_SEGVGUARD` and
`PAX_NOTE_NOSEGVGUARD` are two distinct single-bit flags from the pax
header; their exact bit positions are immaterial to every property
below, only their distinctness is used. -/

def PAX_FEATURE_DISABLED : Int := 0

def PAX_FEATURE_OPTIN : Int := 1

def PAX_FEATURE_OPTOUT : Int := 2

def PAX_FEATURE_FORCE_ENABLED : Int := 3

def PAX_NOTE_SEGVGUARD : Nat := 512

def PAX_NOTE_NOSEGVGUARD : Nat := 1024

/-- Permission bit `S_ISUID` from `sys/stat.h` (octal 4000). -/
def S_ISUID : Nat := 2048

/-- Permission bit `S_ISGID` from `sys/stat.h` (octal 2000). -/
def S_ISGID : Nat := 1024

/-- Bound `MNAMELEN` used by `strncpy`/`strncmp`/`strnlen` on mount names. -/
def MNAMELEN : Nat := 1024

/-- Timer ticks per second; the exact value is immaterial. -/
def hz : Nat := 1000

/-- Errno value `EPERM`. -/
def EPERM : Int := 1

/-- Errno value `EFAULT`. -/
def EFAULT : Int := 14

/-- Fixed bucket count `pax_segvguard_hashsize` of the record table. -/
def pax_segvguard_hashsize : Nat := 512

/-- Default `PAX_SEGVGUARD_EXPIRY` (2 * 60 seconds). -/
def PAX_SEGVGUARD_EXPIRY : Nat := 120

/-- Default `PAX_SEGVGUARD_SUSPENSION` (10 * 60 seconds). -/
def PAX_SEGVGUARD_SUSPENSION : Nat := 600

/-- Default `PAX_SEGVGUARD_MAXCRASHES`. -/
def PAX_SEGVGUARD_MAXCRASHES : Nat := 5

/-! ### Data model -/

/-- Vnode attributes read via `VOP_GETATTR`: the file serial number
`va_fileid` and the permission bits `va_mode`. -/
structure Vattr where
  va_fileid : Nat
  va_mode : Nat
deriving DecidableEq

/-- Slice of a vnode this file consumes: the outcome of attribute
retrieval (`none` models a failing `vn_lock`/`VOP_GETATTR`), and the
containing mount's display name `mnt_stat.f_mntonname`. -/
structure Vnode where
  getattr : Option Vattr
  mntonname : String
deriving DecidableEq

/-- Slice of a thread this file consumes: the execution policy flags
(`pax_get_flags_td`), the real uid of the credential, the process text
vnode `p_textvp`, and the pid (log output only). -/
structure Thread where
  p_pax : Nat
  cr_ruid : Nat
  textvp : Option Vnode
  p_pid : Nat
deriving DecidableEq

/-- Per-prison guard configuration `pr_hbsd.segvguard`. -/
structure HbsdSegvguardCfg where
  status : Int
  expiry : Nat
  suspension : Nat
  maxcrashes : Nat
deriving DecidableEq

/-- File-scope tunables `pax_segvguard_status` / `_expiry` /
`_suspension` / `_maxcrashes`. -/
structure SegvGlobals where
  status : Int
  expiry : Nat
  suspension : Nat
  maxcrashes : Nat
deriving DecidableEq

/-- Record `struct pax_segvguard_entry`.  `se_callout` records the
currently armed countdown in ticks (the argument last given to
`callout_reset`). -/
structure SegvguardEntry where
  se_uid : Nat
  se_inode : Nat
  se_mntpoint : String
  se_ncrashes : Nat
  se_callout : Nat
deriving DecidableEq

/-- Identity key `sekey` built by `pax_segvguard_lookup` (uid, file
serial number, truncated mount name). -/
structure SeKey where
  uid : Nat
  ino : Nat
  mnt : String
deriving DecidableEq

/-- Hash table: `pax_segvguard_hashsize` buckets, each a list of
records (the head of the C singly-linked list first). -/
abbrev SegvTable := List (List SegvguardEntry)

/-- Log/console output events of the two entry points. -/
inductive SegvLog where
  /-- the `Suspending execution ...` printf in `pax_segvguard_segfault`
  (note the C code prints the global suspension value). -/
  | suspend (name : String) (pid : Nat) (secs : Nat) (ncrashes : Nat)
  /-- the `Preventing execution ...` printf in `pax_segvguard_check`. -/
  | prevent (name : String) (pid : Nat)
deriving DecidableEq

/-! ### Identity derivation and hashing -/

/-- Truncation to `MNAMELEN` as performed by `strncpy`/`strncmp`;
characters abstract the bytes of the C string (they coincide on ASCII
mount paths). -/
def strN (s : String) : String := ⟨s.data.take MNAMELEN⟩

/-- One step of `fnv_32_buf`: multiply by the FNV prime modulo `2^32`,
then xor in the next byte. -/
def fnv1_32_step (h b : Nat) : Nat := ((h * 16777619) % 4294967296) ^^^ b

/-- Function `fnv_32_buf`: fold the FNV-1 step over a byte sequence. -/
def fnv_32_buf (bytes : List Nat) (hval : Nat) : Nat := bytes.foldl fnv1_32_step hval

/-- Initial FNV-1 basis `FNV1_32_INIT`. -/
def FNV1_32_INIT : Nat := 2166136261

/-- Little-endian byte decomposition of a machine integer of `w` bytes. -/
def leBytes (w n : Nat) : List Nat := (List.range w).map fun i => n / 256 ^ i % 256

/-- Macro `PAX_SEGVGUARD_HASH`: FNV-1 over the inode bytes, then the
first `strnlen(mnt, MNAMELEN)` bytes of the mount name, then the uid
bytes, reduced modulo `pax_segvguard_hashsize`.  The result is the
bucket index used by `PAX_SEGVGUARD_BUCKET`. -/
def segvguardHashIdx (ino : Nat) (mnt : String) (uid : Nat) : Nat :=
  let h1 := fnv_32_buf (leBytes 8 ino) FNV1_32_INIT
  let h2 := fnv_32_buf ((strN mnt).data.map Char.toNat) h1
  let h3 := fnv_32_buf (leBytes 4 uid) h2
  h3 % pax_segvguard_hashsize

/-- Bucket of a stored record (`PAX_SEGVGUARD_BUCKET(se)`). -/
def bucketOfEntry (se : SegvguardEntry) : Nat :=
  segvguardHashIdx se.se_inode se.se_mntpoint se.se_uid

/-- Bucket of a lookup key (`PAX_SEGVGUARD_BUCKET(&sekey)`). -/
def keyBucket (k : SeKey) : Nat :=
  segvguardHashIdx k.ino k.mnt k.uid

/-- Match test of the `LIST_FOREACH` loop in `pax_segvguard_lookup`:
same inode, mount names equal up to `MNAMELEN` (`strncmp`), same uid. -/
def seMatches (k : SeKey) (se : SegvguardEntry) : Bool :=
  se.se_inode == k.ino && (strN k.mnt == strN se.se_mntpoint) && k.uid == se.se_uid

/-- Identity derivation shared by `pax_segvguard_lookup` and
`pax_segvguard_add`: retrieve the vnode attributes (failure propagates
as `none`) and build (ruid, `va_fileid`, truncated mount name). -/
def deriveKey (td : Thread) (v : Vnode) : Option SeKey :=
  match v.getattr with
  | none => none
  | some vat => some ⟨td.cr_ruid, vat.va_fileid, strN v.mntonname⟩

/-! ### List helpers mirroring the C pointer manipulation -/

/-- First element satisfying `p` (the entry the `LIST_FOREACH` scan
returns a pointer to). -/
def findFirst (p : α → Bool) : List α → Option α
  | [] => none
  | x :: l => if p x then some x else findFirst p l

/-- Replace the first element satisfying `p` by its image under `f`
(the C code mutates the found record through the returned pointer). -/
def updFirst (p : α → Bool) (f : α → α) : List α → List α
  | [] => []
  | x :: l => if p x then f x :: l else x :: updFirst p f l

/-! ### Operations -/

/-- Function `pax_segvguard_active_td`: the `PAX_NOTE_SEGVGUARD` bit is
tested first, then `PAX_NOTE_NOSEGVGUARD`; with neither set the guard
defaults to active. -/
def pax_segvguard_active_td (td : Thread) : Bool :=
  if td.p_pax &&& PAX_NOTE_SEGVGUARD = PAX_NOTE_SEGVGUARD then true
  else if td.p_pax &&& PAX_NOTE_NOSEGVGUARD = PAX_NOTE_NOSEGVGUARD then false
  else true

/-- Models `f &= ~m` for the flag values used here: clear the bits of
`m` out of `f` (the bits of `f &&& m` are a sub-mask of `f`). -/
def bitClear (f m : Nat) : Nat := f - (f &&& m)

/-- Function `pax_segvguard_setup_flags`: resolve the execution policy
flags from the prison status, the binary's `va_mode` setuid/setgid bits
and the requested `mode` override, following the source branch for
branch.  In the opt-in branch a failing `VOP_GETATTR` (`ret != 0`)
short-circuits the condition to true, yielding the guard-active flag. -/
def pax_segvguard_setup_flags (pr : HbsdSegvguardCfg) (v : Vnode) (mode : Nat) : Nat :=
  let flags : Nat := 0
  if pr.status = PAX_FEATURE_DISABLED then
    bitClear flags PAX_NOTE_SEGVGUARD ||| PAX_NOTE_NOSEGVGUARD
  else if pr.status = PAX_FEATURE_FORCE_ENABLED then
    bitClear (flags ||| PAX_NOTE_SEGVGUARD) PAX_NOTE_NOSEGVGUARD
  else if pr.status = PAX_FEATURE_OPTIN then
    match v.getattr with
    | none =>
      bitClear (flags ||| PAX_NOTE_SEGVGUARD) PAX_NOTE_NOSEGVGUARD
    | some vap =>
      if vap.va_mode &&& (S_ISUID ||| S_ISGID) ≠ 0 ∨ mode &&& PAX_NOTE_SEGVGUARD ≠ 0 then
        bitClear (flags ||| PAX_NOTE_SEGVGUARD) PAX_NOTE_NOSEGVGUARD
      else
        bitClear flags PAX_NOTE_SEGVGUARD ||| PAX_NOTE_NOSEGVGUARD
  else if pr.status = PAX_FEATURE_OPTOUT then
    if mode &&& PAX_NOTE_NOSEGVGUARD ≠ 0 then
      bitClear flags PAX_NOTE_SEGVGUARD ||| PAX_NOTE_NOSEGVGUARD
    else
      bitClear (flags ||| PAX_NOTE_SEGVGUARD) PAX_NOTE_NOSEGVGUARD
  else
    bitClear (flags ||| PAX_NOTE_SEGVGUARD) PAX_NOTE_NOSEGVGUARD

/-- Function `pax_segvguard_lookup`: derive the key (attribute failure
gives `none`), scan the key's bucket, return the first match.  The
returned pair carries the key alongside the record, standing for the
still-held bucket reference through which the caller updates and
unlocks. -/
def pax_segvguard_lookup (td : Thread) (v : Vnode) (tbl : SegvTable) :
    Option (SeKey × SegvguardEntry) :=
  match deriveKey td v with
  | none => none
  | some k => (findFirst (seMatches k) (tbl.getD (keyBucket k) [])).map fun se => (k, se)

/-- Function `pax_segvguard_add`: allocate a record (failure gives
`none` and leaves the table alone), derive the attributes (failure
likewise), fill in the key fields with crash count 1, insert at the
head of the record's bucket and arm the expiry countdown for the
prison's expiry seconds. -/
def pax_segvguard_add (td : Thread) (v : Vnode) (pr : HbsdSegvguardCfg)
    (allocOk : Bool) (tbl : SegvTable) : Option SegvguardEntry × SegvTable :=
  if allocOk = false then (none, tbl)
  else
    match v.getattr with
    | none => (none, tbl)
    | some vat =>
      let se : SegvguardEntry :=
        { se_uid := td.cr_ruid
          se_inode := vat.va_fileid
          se_mntpoint := strN v.mntonname
          se_ncrashes := 1
          se_callout := pr.expiry * hz }
      let b := bucketOfEntry se
      (some se, tbl.set b (se :: tbl.getD b []))

/-- Record update performed by the found-branch of
`pax_segvguard_segfault`: increment `se_ncrashes`; if the new count
reaches the global `pax_segvguard_maxcrashes`, re-arm the countdown
(`callout_reset`) for the prison's suspension seconds. -/
def bumpEntry (g : SegvGlobals) (pr : HbsdSegvguardCfg) (se : SegvguardEntry) :
    SegvguardEntry :=
  let se1 : SegvguardEntry := { se with se_ncrashes := se.se_ncrashes + 1 }
  if se1.se_ncrashes ≥ g.maxcrashes then { se1 with se_callout := pr.suspension * hz }
  else se1

/-- Function `pax_segvguard_segfault`: no-op when the guard is inactive;
`EFAULT` when the process has no text vnode; otherwise look the
identity up, create a fresh record when none is found, and when one is
found bump its crash count (and on reaching the global threshold re-arm
the suspension countdown and log the suspension). -/
def pax_segvguard_segfault (g : SegvGlobals) (pr : HbsdSegvguardCfg) (td : Thread)
    (name : String) (allocOk : Bool) (tbl : SegvTable) : Int × SegvTable × List SegvLog :=
  if pax_segvguard_active_td td = false then (0, tbl, [])
  else
    match td.textvp with
    | none => (EFAULT, tbl, [])
    | some v =>
      match pax_segvguard_lookup td v tbl with
      | none => (0, (pax_segvguard_add td v pr allocOk tbl).2, [])
      | some (k, se) =>
        let b := keyBucket k
        let tbl2 := tbl.set b (updFirst (seMatches k) (bumpEntry g pr) (tbl.getD b []))
        if se.se_ncrashes + 1 ≥ g.maxcrashes then
          (0, tbl2, [SegvLog.suspend name td.p_pid g.suspension (se.se_ncrashes + 1)])
        else
          (0, tbl2, [])

/-- Function `pax_segvguard_check`: no-op when the guard is inactive;
`EFAULT` when no vnode is supplied; otherwise look the identity up and
deny with `EPERM` (logged) exactly when a record is found whose crash
count is at or above the global `pax_segvguard_maxcrashes`. -/
def pax_segvguard_check (g : SegvGlobals) (td : Thread) (vOpt : Option Vnode)
    (name : String) (tbl : SegvTable) : Int × SegvTable × List SegvLog :=
  if pax_segvguard_active_td td = false then (0, tbl, [])
  else
    match vOpt with
    | none => (EFAULT, tbl, [])
    | some v =>
      match pax_segvguard_lookup td v tbl with
      | none => (0, tbl, [])
      | some (_, se) =>
        if se.se_ncrashes ≥ g.maxcrashes then (EPERM, tbl, [SegvLog.prevent name td.p_pid])
        else (0, tbl, [])

/-- Function `pax_segvguard_validate_flags`: the four recognized modes
are returned unchanged, anything else is coerced to
`PAX_FEATURE_FORCE_ENABLED`. -/
def pax_segvguard_validate_flags (flags : Int) : Int :=
  if flags = PAX_FEATURE_DISABLED ∨ flags = PAX_FEATURE_OPTIN ∨
      flags = PAX_FEATURE_OPTOUT ∨ flags = PAX_FEATURE_FORCE_ENABLED then flags
  else PAX_FEATURE_FORCE_ENABLED

/-- Status-validation step of `pax_segvguard_sysinit`: an unrecognized
boot-time `pax_segvguard_status` is coerced to
`PAX_FEATURE_FORCE_ENABLED` with a warning printed; recognized values
pass through silently.  Returns (resulting status, warning emitted). -/
def pax_segvguard_sysinit_status (s : Int) : Int × Bool :=
  if s = PAX_FEATURE_DISABLED ∨ s = PAX_FEATURE_OPTIN ∨
      s = PAX_FEATURE_OPTOUT ∨ s = PAX_FEATURE_FORCE_ENABLED then (s, false)
  else (PAX_FEATURE_FORCE_ENABLED, true)

/-! ### Specification-side definitions -/

/-- Decision table of spec section 4.4, written from the spec's words
(scope mode, privilege-elevation bit, requested override bits), to be
compared with `pax_segvguard_setup_flags`. -/
def specDecisionTable (status : Int) (elevated reqGuard reqNoGuard : Bool) : Nat :=
  if status = PAX_FEATURE_DISABLED then PAX_NOTE_NOSEGVGUARD
  else if status = PAX_FEATURE_FORCE_ENABLED then PAX_NOTE_SEGVGUARD
  else if status = PAX_FEATURE_OPTIN then
    if elevated || reqGuard then PAX_NOTE_SEGVGUARD else PAX_NOTE_NOSEGVGUARD
  else if status = PAX_FEATURE_OPTOUT then
    if reqNoGuard then PAX_NOTE_NOSEGVGUARD else PAX_NOTE_SEGVGUARD
  else PAX_NOTE_SEGVGUARD

/-! ### Table invariant -/

/-- Identity triple of a record, normalized like the `strncmp`-based
match of the lookup scan. -/
def entryKey (e : SegvguardEntry) : Nat × Nat × String :=
  (e.se_uid, e.se_inode, strN e.se_mntpoint)

/-- Well-formedness of the record table: 512 buckets, every record
stored in the bucket its identity hashes to, and no two live records
share an identity triple. -/
def WFtbl (tbl : SegvTable) : Prop :=
  tbl.length = pax_segvguard_hashsize ∧
  (∀ i < pax_segvguard_hashsize, ∀ e ∈ tbl.getD i [], bucketOfEntry e = i) ∧
  (tbl.flatten.map entryKey).Nodup

instance (tbl : SegvTable) : Decidable (WFtbl tbl) := by
  unfold WFtbl; infer_instance

/-! ### Concrete fixtures used by the closed theorems -/

/-- Table with 512 empty buckets. -/
def emptyTbl : SegvTable := List.replicate pax_segvguard_hashsize []

/-- Vnode for inode 7, no setuid/setgid bits, mounted at the root. -/
def v0 : Vnode := { getattr := some ⟨7, 0⟩, mntonname := "/" }

/-- Thread with the guard-active flag, ruid 0, text vnode `v0`. -/
def td0 : Thread := { p_pax := PAX_NOTE_SEGVGUARD, cr_ruid := 0, textvp := some v0, p_pid := 100 }

/-- Identity of `td0` executing `v0`. -/
def k0 : SeKey := ⟨0, 7, strN "/"⟩

/-- Globals at their build-time defaults (opt-out hardening profile). -/
def g0 : SegvGlobals :=
  ⟨PAX_FEATURE_OPTOUT, PAX_SEGVGUARD_EXPIRY, PAX_SEGVGUARD_SUSPENSION, PAX_SEGVGUARD_MAXCRASHES⟩

/-- Prison configuration equal to the global defaults. -/
def pr0 : HbsdSegvguardCfg :=
  ⟨PAX_FEATURE_OPTOUT, PAX_SEGVGUARD_EXPIRY, PAX_SEGVGUARD_SUSPENSION, PAX_SEGVGUARD_MAXCRASHES⟩

/-- Record for identity `k0` with one crash and the expiry countdown armed. -/
def e1 : SegvguardEntry := ⟨0, 7, strN "/", 1, PAX_SEGVGUARD_EXPIRY * hz⟩

/-- Table holding exactly the record `e1`, in its correct bucket. -/
def tbl1 : SegvTable := emptyTbl.set (keyBucket k0) [e1]

/-- Prison whose max-crash threshold (1) is lower than the global (5). -/
def cfg1 : HbsdSegvguardCfg :=
  ⟨PAX_FEATURE_OPTOUT, PAX_SEGVGUARD_EXPIRY, PAX_SEGVGUARD_SUSPENSION, 1⟩

/-- Prison whose max-crash threshold (2) is lower than the global (5). -/
def cfg3 : HbsdSegvguardCfg :=
  ⟨PAX_FEATURE_OPTOUT, PAX_SEGVGUARD_EXPIRY, PAX_SEGVGUARD_SUSPENSION, 2⟩

/-! ### Helper lemmas -/

theorem strN_strN (s : String) : strN (strN s) = strN s := by
  simp [strN, List.take_take]

theorem seMatches_iff_entryKey (k : SeKey) (e : SegvguardEntry) :
    seMatches k e = true ↔ entryKey e = (k.uid, k.ino, strN k.mnt) := by
  simp [seMatches, entryKey, Prod.ext_iff]
  constructor
  · rintro ⟨⟨h1, h2⟩, h3⟩
    exact ⟨h3.symm, h1, h2.symm⟩
  · rintro ⟨h1, h2, h3⟩
    exact ⟨⟨h2, h3.symm⟩, h1.symm⟩

theorem bucket_of_matching (k : SeKey) (e : SegvguardEntry) (h : seMatches k e = true) :
    bucketOfEntry e = keyBucket k := by
  simp [seMatches] at h
  obtain ⟨⟨h1, h2⟩, h3⟩ := h
  simp [bucketOfEntry, keyBucket, segvguardHashIdx, h1, ← h3]
  rw [show strN e.se_mntpoint = strN k.mnt from h2.symm]

theorem findFirst_eq_head? (p : α → Bool) (l : List α) :
    findFirst p l = (l.filter p).head? := by
  induction l with
  | nil => rfl
  | cons x l ih =>
    by_cases h : p x = true
    · simp [findFirst, List.filter_cons, h]
    · simp only [Bool.not_eq_true] at h
      simp [findFirst, List.filter_cons, h, ih]

theorem filter_updFirst_singleton (p : α → Bool) (f : α → α) (l : List α) (e : α)
    (hf : l.filter p = [e]) (hpe : p (f e) = true) :
    (updFirst p f l).filter p = [f e] := by
  induction l with
  | nil => simp at hf
  | cons x l ih =>
    by_cases h : p x = true
    · rw [List.filter_cons_of_pos h] at hf
      injection hf with h1 h2
      subst h1
      simp [updFirst, h, List.filter_cons_of_pos hpe, h2]
    · simp only [Bool.not_eq_true] at h
      have hf' : l.filter p = [e] := by simpa [List.filter_cons, h] using hf
      simp [updFirst, h, List.filter_cons, ih hf']

theorem map_updFirst (p : α → Bool) (f : α → α) (g : α → β) (l : List α)
    (h : ∀ x, g (f x) = g x) : (updFirst p f l).map g = l.map g := by
  induction l with
  | nil => rfl
  | cons x l ih =>
    by_cases hx : p x = true
    · simp [updFirst, hx, h]
    · simp only [Bool.not_eq_true] at hx
      simp [updFirst, hx, ih]

theorem mem_updFirst (p : α → Bool) (f : α → α) (l : List α) (x : α)
    (h : x ∈ updFirst p f l) : x ∈ l ∨ ∃ y ∈ l, x = f y := by
  induction l with
  | nil => simp [updFirst] at h
  | cons a l ih =>
    by_cases ha : p a = true
    · simp [updFirst, ha] at h
      rcases h with h | h
      · exact Or.inr ⟨a, by simp, h⟩
      · exact Or.inl (by simp [h])
    · simp only [Bool.not_eq_true] at ha
      simp [updFirst, ha] at h
      rcases h with h | h
      · exact Or.inl (by simp [h])
      · rcases ih h with h1 | ⟨y, hy, hxy⟩
        · exact Or.inl (by simp [h1])
        · exact Or.inr ⟨y, by simp [hy], hxy⟩

theorem getD_set_self (l : List α) (i : Nat) (a d : α) (h : i < l.length) :
    (l.set i a).getD i d = a := by
  simp [List.getD, List.getElem?_set_self, h]

theorem getD_set_ne (l : List α) (i j : Nat) (a d : α) (h : i ≠ j) :
    (l.set i a).getD j d = l.getD j d := by
  simp [List.getD, List.getElem?_set_ne h]

theorem set_getD_self (l : List α) (i : Nat) (d : α) (h : i < l.length) :
    l.set i (l.getD i d) = l := by
  induction l generalizing i with
  | nil => simp at h
  | cons x l ih =>
    cases i with
    | zero => simp [List.getD]
    | succ i =>
      simp only [List.length_cons, Nat.succ_lt_succ_iff] at h
      have := ih i h
      simpa [List.getD] using this

theorem getD_map (f : α → β) (l : List α) (i : Nat) (d : α) :
    (l.map f).getD i (f d) = f (l.getD i d) := by
  induction l generalizing i with
  | nil => simp [List.getD]
  | cons x l ih =>
    cases i with
    | zero => simp [List.getD]
    | succ i => exact ih i

theorem flatten_eq_getD_of_others_nil (L : List (List α)) (b : Nat)
    (hb : b < L.length) (h : ∀ j < L.length, j ≠ b → L.getD j [] = []) :
    L.flatten = L.getD b [] := by
  induction L generalizing b with
  | nil => simp at hb
  | cons x L ih =>
    cases b with
    | zero =>
      have : L.flatten = [] := by
        rw [List.flatten_eq_nil_iff]
        intro l hl
        obtain ⟨j, hj⟩ := List.mem_iff_getElem.mp hl
        obtain ⟨hjl, hjv⟩ := hj
        have := h (j + 1) (by simpa using Nat.succ_lt_succ hjl) (by simp)
        simp [List.getD, List.getElem?_eq_getElem hjl] at this
        rw [← hjv]; exact this
      simp [List.getD, this]
    | succ b =>
      have hx : x = [] := by
        have := h 0 (by simp) (by simp)
        simpa [List.getD] using this
      have hb' : b < L.length := by simpa using Nat.lt_of_succ_lt_succ hb
      have h' : ∀ j < L.length, j ≠ b → L.getD j [] = [] := by
        intro j hj hjb
        have := h (j + 1) (by simpa using Nat.succ_lt_succ hj) (by simpa using hjb)
        simpa [List.getD] using this
      simp [hx, List.getD, ih b hb' h']

theorem filter_flatten (p : α → Bool) (L : List (List α)) :
    L.flatten.filter p = (L.map (List.filter p)).flatten := by
  induction L with
  | nil => rfl
  | cons x L ih => simp [List.filter_append, ih]

theorem mem_flatten_set (L : List (List α)) (b : Nat) (l' : List α) (x : α)
    (h : x ∈ (L.set b l').flatten) : x ∈ L.flatten ∨ x ∈ l' := by
  rw [List.mem_flatten] at h
  obtain ⟨l, hl, hx⟩ := h
  rcases List.mem_or_eq_of_mem_set hl with h1 | h1
  · exact Or.inl (List.mem_flatten.mpr ⟨l, h1, hx⟩)
  · subst h1; exact Or.inr hx

theorem nodup_flatten_set_cons (L : List (List α)) (b : Nat) (x : α)
    (hb : b < L.length) (hn : L.flatten.Nodup) (hx : x ∉ L.flatten) :
    (L.set b (x :: L.getD b [])).flatten.Nodup := by
  induction L generalizing b with
  | nil => simp at hb
  | cons h t ih =>
    cases b with
    | zero =>
      simp only [List.set, List.getD, List.getElem?_cons_zero, Option.getD_some]
      simp only [List.flatten_cons]
      simp only [List.flatten_cons] at hn hx
      simp only [List.cons_append, List.nodup_cons]
      exact ⟨by simpa using hx, hn⟩
    | succ b =>
      simp only [List.length_cons, Nat.succ_lt_succ_iff] at hb
      simp only [List.set, List.getD]
      simp only [List.flatten_cons] at hn hx ⊢
      rw [List.nodup_append] at hn
      obtain ⟨hh, ht, hdisj⟩ := hn
      have hxt : x ∉ t.flatten := fun hc => hx (List.mem_append_right _ hc)
      rw [List.nodup_append]
      refine ⟨hh, ?_, ?_⟩
      · have := ih b hb ht hxt
        simpa [List.getD] using this
      · intro y hy hy'
        rcases mem_flatten_set t b (x :: t.getD b []) y hy' with h1 | h1
        · exact hdisj hy h1
        · rcases List.mem_cons.mp h1 with h2 | h2
          · subst h2; exact hx (List.mem_append_left _ hy)
          · apply hdisj hy
            apply List.mem_flatten.mpr
            refine ⟨t.getD b [], ?_, h2⟩
            have : b < t.length := hb
            rw [List.getD_eq_getElem _ _ this]
            exact List.getElem_mem this

theorem filter_length_le_one_of_nodup (l : List SegvguardEntry)
    (hn : (l.map entryKey).Nodup) (k : SeKey) :
    (l.filter (seMatches k)).length ≤ 1 := by
  induction l with
  | nil => simp
  | cons e t ih =>
    simp only [List.map_cons, List.nodup_cons] at hn
    obtain ⟨he, ht⟩ := hn
    by_cases hm : seMatches k e = true
    · rw [List.filter_cons_of_pos hm]
      have : t.filter (seMatches k) = [] := by
        rw [List.filter_eq_nil_iff]
        intro a ha hpa
        apply he
        have h1 := (seMatches_iff_entryKey k a).mp hpa
        have h2 := (seMatches_iff_entryKey k e).mp hm
        rw [← h2] at h1
        exact h1 ▸ List.mem_map_of_mem entryKey ha
      simp [this]
    · simp only [Bool.not_eq_true] at hm
      rw [List.filter_cons_of_neg (by simp [hm])]
      exact ih ht

theorem keyBucket_lt (k : SeKey) : keyBucket k < pax_segvguard_hashsize := by
  unfold keyBucket segvguardHashIdx
  exact Nat.mod_lt _ (by norm_num [pax_segvguard_hashsize])

theorem entryKey_bump (g : SegvGlobals) (pr : HbsdSegvguardCfg) (e : SegvguardEntry) :
    entryKey (bumpEntry g pr e) = entryKey e := by
  by_cases h : e.se_ncrashes + 1 >= g.maxcrashes <;> simp [bumpEntry, entryKey, h]

theorem seMatches_bump (k : SeKey) (g : SegvGlobals) (pr : HbsdSegvguardCfg)
    (e : SegvguardEntry) : seMatches k (bumpEntry g pr e) = seMatches k e := by
  by_cases h : e.se_ncrashes + 1 >= g.maxcrashes <;> simp [bumpEntry, seMatches, h]

theorem bucketOfEntry_bump (g : SegvGlobals) (pr : HbsdSegvguardCfg) (e : SegvguardEntry) :
    bucketOfEntry (bumpEntry g pr e) = bucketOfEntry e := by
  by_cases h : e.se_ncrashes + 1 >= g.maxcrashes <;> simp [bumpEntry, bucketOfEntry, h]

theorem filter_flatten_eq_bucket (tbl : SegvTable) (k : SeKey)
    (hlen : tbl.length = pax_segvguard_hashsize)
    (hpl : ∀ i < pax_segvguard_hashsize, ∀ e ∈ tbl.getD i [], bucketOfEntry e = i) :
    tbl.flatten.filter (seMatches k) = (tbl.getD (keyBucket k) []).filter (seMatches k) := by
  have hb : keyBucket k < tbl.length := hlen ▸ keyBucket_lt k
  rw [filter_flatten]
  rw [flatten_eq_getD_of_others_nil (tbl.map (List.filter (seMatches k))) (keyBucket k)
    (by simpa using hb) ?_]
  · simpa using getD_map (List.filter (seMatches k)) tbl (keyBucket k) []
  · intro j hj hjb
    rw [List.length_map] at hj
    have : (tbl.map (List.filter (seMatches k))).getD j []
        = (tbl.getD j []).filter (seMatches k) := by
      simpa using getD_map (List.filter (seMatches k)) tbl j []
    rw [this, List.filter_eq_nil_iff]
    intro e he hpe
    apply hjb
    rw [← hpl j (hlen ▸ hj) e he]
    exact bucket_of_matching k e hpe

theorem segClear : bitClear (0 ||| PAX_NOTE_SEGVGUARD) PAX_NOTE_NOSEGVGUARD
    = PAX_NOTE_SEGVGUARD := by decide

theorem nosegClear : bitClear 0 PAX_NOTE_SEGVGUARD ||| PAX_NOTE_NOSEGVGUARD
    = PAX_NOTE_NOSEGVGUARD := by decide

theorem segClearBare : bitClear PAX_NOTE_SEGVGUARD PAX_NOTE_NOSEGVGUARD
    = PAX_NOTE_SEGVGUARD := by decide

/-! ### Claim theorems -/

/-- Claim C6: at most one live record exists per identity triple, a
newly inserted record has crash count exactly 1, and a second crash for
an identity that already has a live record increments that same record
instead of creating a second one.  Precisely: from a well-formed table,
one `pax_segvguard_segfault` step with a derivable identity `k` and
successful allocation (1) preserves well-formedness, (2) leaves at most
one record per identity, (3) creates exactly the fresh record with
count 1 when no record matched `k`, and (4) replaces the unique record
matching `k` by its bumped version when one matched. -/
theorem pax_segvguard_record_uniqueness
    (g : SegvGlobals) (pr : HbsdSegvguardCfg) (td : Thread) (name : String)
    (tbl : SegvTable) (v : Vnode) (k : SeKey)
    (hwf : WFtbl tbl) (hact : pax_segvguard_active_td td = true)
    (hvp : td.textvp = some v) (hk : deriveKey td v = some k) :
    WFtbl (pax_segvguard_segfault g pr td name true tbl).2.1
    ∧ (∀ k2 : SeKey,
        ((pax_segvguard_segfault g pr td name true tbl).2.1.flatten.filter
          (seMatches k2)).length ≤ 1)
    ∧ (tbl.flatten.filter (seMatches k) = [] →
        (pax_segvguard_segfault g pr td name true tbl).2.1.flatten.filter (seMatches k)
          = [⟨k.uid, k.ino, k.mnt, 1, pr.expiry * hz⟩])
    ∧ (∀ e, tbl.flatten.filter (seMatches k) = [e] →
        (pax_segvguard_segfault g pr td name true tbl).2.1.flatten.filter (seMatches k)
          = [bumpEntry g pr e]) := by
  obtain ⟨hlen, hpl, hnd⟩ := hwf
  cases hv : v.getattr with
  | none => simp [deriveKey, hv] at hk
  | some vat =>
    obtain ⟨ku, ki, km⟩ := k
    simp only [deriveKey, hv, Option.some.injEq, SeKey.mk.injEq] at hk
    obtain ⟨hk1, hk2, hk3⟩ := hk
    subst hk1; subst hk2; subst hk3
    set kk : SeKey := ⟨td.cr_ruid, vat.va_fileid, strN v.mntonname⟩ with hkkdef
    set bK : Nat := keyBucket kk with hbKdef
    have hb : bK < tbl.length := hlen ▸ keyBucket_lt kk
    have hlocal : tbl.flatten.filter (seMatches kk) = (tbl.getD bK []).filter (seMatches kk) :=
      filter_flatten_eq_bucket tbl kk hlen hpl
    have hlookup : pax_segvguard_lookup td v tbl
        = (findFirst (seMatches kk) (tbl.getD bK [])).map (fun se => (kk, se)) := by
      simp [pax_segvguard_lookup, deriveKey, hv, hkkdef, hbKdef]
    have hh := findFirst_eq_head? (seMatches kk) (tbl.getD bK [])
    cases hff : findFirst (seMatches kk) (tbl.getD bK []) with
    | none =>
      have hfilnil : (tbl.getD bK []).filter (seMatches kk) = [] := by
        cases hfl : (tbl.getD bK []).filter (seMatches kk) with
        | nil => rfl
        | cons a t => rw [hff, hfl] at hh; cases hh
      have hmatch : seMatches kk (⟨td.cr_ruid, vat.va_fileid, strN v.mntonname, 1,
          pr.expiry * hz⟩ : SegvguardEntry) = true := by
        simp [seMatches, strN_strN]
      have hbeq : bucketOfEntry (⟨td.cr_ruid, vat.va_fileid, strN v.mntonname, 1,
          pr.expiry * hz⟩ : SegvguardEntry) = bK := bucket_of_matching kk _ hmatch
      have hres : (pax_segvguard_segfault g pr td name true tbl).2.1
          = tbl.set bK ((⟨td.cr_ruid, vat.va_fileid, strN v.mntonname, 1,
              pr.expiry * hz⟩ : SegvguardEntry) :: tbl.getD bK []) := by
        simp only [pax_segvguard_segfault, hact, hvp, hlookup, hff]
        simp [pax_segvguard_add, hv, hbeq]
      have hlen2 : (tbl.set bK ((⟨td.cr_ruid, vat.va_fileid, strN v.mntonname, 1,
          pr.expiry * hz⟩ : SegvguardEntry) :: tbl.getD bK [])).length
          = pax_segvguard_hashsize := by
        simpa using hlen
      have hpl2 : ∀ i < pax_segvguard_hashsize,
          ∀ e ∈ (tbl.set bK ((⟨td.cr_ruid, vat.va_fileid, strN v.mntonname, 1,
            pr.expiry * hz⟩ : SegvguardEntry) :: tbl.getD bK [])).getD i [],
            bucketOfEntry e = i := by
        intro i hi e he
        by_cases hib : i = bK
        · subst hib
          rw [getD_set_self _ _ _ _ hb] at he
          rcases List.mem_cons.mp he with h1 | h1
          · rw [h1]; exact hbeq
          · exact hpl _ hi e h1
        · rw [getD_set_ne _ _ _ _ _ (fun hcl => hib hcl.symm)] at he
          exact hpl i hi e he
      have hnotin : entryKey (⟨td.cr_ruid, vat.va_fileid, strN v.mntonname, 1,
          pr.expiry * hz⟩ : SegvguardEntry) ∉ tbl.flatten.map entryKey := by
        intro hmem
        obtain ⟨e, hef, heq⟩ := List.mem_map.mp hmem
        have hsm : seMatches kk e = true := by
          rw [seMatches_iff_entryKey]
          rw [heq]
          simp [entryKey, strN_strN]
        have : e ∈ tbl.flatten.filter (seMatches kk) := List.mem_filter.mpr ⟨hef, hsm⟩
        rw [hlocal, hfilnil] at this
        simp at this
      have hnd2 : ((tbl.set bK ((⟨td.cr_ruid, vat.va_fileid, strN v.mntonname, 1,
          pr.expiry * hz⟩ : SegvguardEntry) :: tbl.getD bK [])).flatten.map entryKey).Nodup := by
        rw [List.map_flatten, List.map_set]
        have hfold : (tbl.getD bK []).map entryKey
            = (tbl.map (List.map entryKey)).getD bK [] := by
          simpa using (getD_map (List.map entryKey) tbl bK []).symm
        rw [List.map_cons, hfold]
        apply nodup_flatten_set_cons
        · simpa using hb
        · rw [← List.map_flatten]; exact hnd
        · rw [← List.map_flatten]; exact hnotin
      rw [hres]
      refine ⟨⟨hlen2, hpl2, hnd2⟩, ?_, ?_, ?_⟩
      · intro k2
        exact filter_length_le_one_of_nodup _ hnd2 k2
      · intro _
        rw [filter_flatten_eq_bucket _ kk hlen2 hpl2]
        rw [getD_set_self _ _ _ _ hb]
        rw [List.filter_cons_of_pos hmatch, hfilnil]
      · intro e he
        rw [hlocal, hfilnil] at he
        cases he
    | some se =>
      obtain ⟨t, hfl⟩ : ∃ t, (tbl.getD bK []).filter (seMatches kk) = se :: t := by
        cases hfl : (tbl.getD bK []).filter (seMatches kk) with
        | nil => rw [hff, hfl] at hh; cases hh
        | cons a t =>
          rw [hff, hfl] at hh
          injection hh with h1
          subst h1
          exact ⟨t, rfl⟩
      have hpse : seMatches kk se = true := by
        have hmem : se ∈ (tbl.getD bK []).filter (seMatches kk) := by rw [hfl]; simp
        exact (List.mem_filter.mp hmem).2
      have hres : (pax_segvguard_segfault g pr td name true tbl).2.1
          = tbl.set bK (updFirst (seMatches kk) (bumpEntry g pr) (tbl.getD bK [])) := by
        simp only [pax_segvguard_segfault, hact, hvp, hlookup, hff]
        by_cases hc : se.se_ncrashes + 1 ≥ g.maxcrashes <;> simp [hc]
      have hpl2 : ∀ i < pax_segvguard_hashsize,
          ∀ e ∈ (tbl.set bK (updFirst (seMatches kk) (bumpEntry g pr)
            (tbl.getD bK []))).getD i [], bucketOfEntry e = i := by
        intro i hi e he
        by_cases hib : i = bK
        · subst hib
          rw [getD_set_self _ _ _ _ hb] at he
          rcases mem_updFirst _ _ _ _ he with h1 | ⟨y, hy, hxy⟩
          · exact hpl _ hi e h1
          · rw [hxy, bucketOfEntry_bump]
            exact hpl _ hi y hy
        · rw [getD_set_ne _ _ _ _ _ (fun hcl => hib hcl.symm)] at he
          exact hpl i hi e he
      have hkeys : (updFirst (seMatches kk) (bumpEntry g pr) (tbl.getD bK [])).map entryKey
          = (tbl.getD bK []).map entryKey :=
        map_updFirst _ _ _ _ (entryKey_bump g pr)
      have hnd2 : ((tbl.set bK (updFirst (seMatches kk) (bumpEntry g pr)
          (tbl.getD bK []))).flatten.map entryKey).Nodup := by
        rw [List.map_flatten, List.map_set, hkeys]
        have hfold : (tbl.getD bK []).map entryKey
            = (tbl.map (List.map entryKey)).getD bK [] := by
          simpa using (getD_map (List.map entryKey) tbl bK []).symm
        rw [hfold, set_getD_self _ _ _ (by simpa using hb), ← List.map_flatten]
        exact hnd
      have hlen2 : (tbl.set bK (updFirst (seMatches kk) (bumpEntry g pr)
          (tbl.getD bK []))).length = pax_segvguard_hashsize := by simpa using hlen
      rw [hres]
      refine ⟨⟨hlen2, hpl2, hnd2⟩, ?_, ?_, ?_⟩
      · intro k2
        exact filter_length_le_one_of_nodup _ hnd2 k2
      · intro habs
        rw [hlocal, hfl] at habs
        cases habs
      · intro e he
        rw [hlocal, hfl] at he
        injection he with h1 h2
        subst h1
        rw [filter_flatten_eq_bucket _ kk hlen2 hpl2]
        rw [getD_set_self _ _ _ _ hb]
        exact filter_updFirst_singleton _ _ _ _ (by rw [hfl, h2])
          (by rw [seMatches_bump]; exact hpse)

/-- Witness for claim C6: from the empty (well-formed) table, one crash
of `td0` on `v0` yields exactly one record for identity `k0`, with
crash count 1 and the expiry countdown armed. -/
theorem record_uniqueness_witness :
    WFtbl emptyTbl ∧
    (pax_segvguard_segfault g0 pr0 td0 "a.out" true emptyTbl).2.1.flatten.filter (seMatches k0)
      = [⟨k0.uid, k0.ino, k0.mnt, 1, pr0.expiry * hz⟩] :=
  ⟨by decide, (pax_segvguard_record_uniqueness g0 pr0 td0 "a.out" emptyTbl v0 k0
      (by decide) (by decide) rfl (by decide)).2.2.1 (by decide)⟩

/-- Claim C2: for every combination of scope mode, privilege-elevation
bit and requested override bit (with the privilege attributes
retrievable), `pax_segvguard_setup_flags` returns exactly the flag
given by the decision table of spec section 4.4: disabled is always
guard-inactive, forced always guard-active, opt-in is guard-active iff
the binary is setuid/setgid or requests the guard, opt-out is
guard-active unless the override requests inactive, and any
unrecognized mode is guard-active. -/
theorem setup_flags_matches_decision_table (pr : HbsdSegvguardCfg) (v : Vnode)
    (vap : Vattr) (mode : Nat) (h : v.getattr = some vap) :
    pax_segvguard_setup_flags pr v mode =
      specDecisionTable pr.status (vap.va_mode &&& (S_ISUID ||| S_ISGID) != 0)
        (mode &&& PAX_NOTE_SEGVGUARD != 0) (mode &&& PAX_NOTE_NOSEGVGUARD != 0) := by
  simp only [pax_segvguard_setup_flags, specDecisionTable, h, segClear, nosegClear]
  split_ifs <;> simp_all [bne_iff_ne]

/-- Witness for claim C2: in opt-in mode a setuid binary with no
override bits resolves to the table's value. -/
theorem setup_flags_matches_decision_table_witness :
    (Vnode.mk (some ⟨7, 2048⟩) "/").getattr = some (⟨7, 2048⟩ : Vattr) ∧
    pax_segvguard_setup_flags ⟨PAX_FEATURE_OPTIN, 120, 600, 5⟩ (Vnode.mk (some ⟨7, 2048⟩) "/") 0
      = specDecisionTable PAX_FEATURE_OPTIN ((2048 &&& (S_ISUID ||| S_ISGID)) != 0)
          ((0 &&& PAX_NOTE_SEGVGUARD) != 0) ((0 &&& PAX_NOTE_NOSEGVGUARD) != 0) :=
  ⟨rfl, setup_flags_matches_decision_table ⟨PAX_FEATURE_OPTIN, 120, 600, 5⟩ _ _ 0 rfl⟩

/-- Counterexample for claim C4: in opt-in mode with attribute retrieval
failing and the override not requesting the guard, the resolver returns
guard-active (`PAX_NOTE_SEGVGUARD`), not guard-inactive as the claim
states. -/
theorem setup_flags_optin_getattr_failure_cex :
    pax_segvguard_setup_flags ⟨PAX_FEATURE_OPTIN, 120, 600, 5⟩ ⟨none, "/"⟩ 0
      = PAX_NOTE_SEGVGUARD ∧
    pax_segvguard_setup_flags ⟨PAX_FEATURE_OPTIN, 120, 600, 5⟩ ⟨none, "/"⟩ 0
      ≠ PAX_NOTE_NOSEGVGUARD := by decide

/-- Claim C4 as amended: during opt-in evaluation a failure to retrieve
the binary's privilege attributes is treated as privilege-elevated
(fail closed): for every execution setup in opt-in mode where attribute
retrieval fails, the resolver returns guard-active regardless of the
override bit, and the failure does not abort execution setup (a flag
value is still produced). -/
theorem setup_flags_optin_getattr_failure (pr : HbsdSegvguardCfg) (v : Vnode) (mode : Nat)
    (hst : pr.status = PAX_FEATURE_OPTIN) (hav : v.getattr = none) :
    pax_segvguard_setup_flags pr v mode = PAX_NOTE_SEGVGUARD := by
  simp [pax_segvguard_setup_flags, hst, hav, segClear, segClearBare, PAX_FEATURE_OPTIN,
    PAX_FEATURE_DISABLED, PAX_FEATURE_FORCE_ENABLED]

/-- Witness for the amended claim C4 at a concrete opt-in prison and a
vnode whose attribute retrieval fails. -/
theorem setup_flags_optin_getattr_failure_witness :
    (⟨PAX_FEATURE_OPTIN, 120, 600, 5⟩ : HbsdSegvguardCfg).status = PAX_FEATURE_OPTIN ∧
    (Vnode.mk none "/").getattr = none ∧
    pax_segvguard_setup_flags ⟨PAX_FEATURE_OPTIN, 120, 600, 5⟩ ⟨none, "/"⟩ 0
      = PAX_NOTE_SEGVGUARD :=
  ⟨rfl, rfl,
    setup_flags_optin_getattr_failure ⟨PAX_FEATURE_OPTIN, 120, 600, 5⟩ ⟨none, "/"⟩ 0 rfl rfl⟩

/-- Counterexample for claim C5: with the guard active and the backing
image unavailable, `pax_segvguard_check` returns `EFAULT`, not the
allow outcome 0 the claim states. -/
theorem check_null_vnode_cex :
    (pax_segvguard_check g0 td0 none "a.out" emptyTbl).1 = EFAULT ∧
    (pax_segvguard_check g0 td0 none "a.out" emptyTbl).1 ≠ 0 := by decide

/-- Claim C5 as amended: with the guard active, an unavailable backing
image makes `pax_segvguard_check` return `EFAULT` (a fault indication
distinct from the permission-denied outcome `EPERM`), and an
underivable identity (attribute-retrieval failure) makes it allow;
missing conditions never produce the permission-denied outcome. -/
theorem check_missing_conditions (g : SegvGlobals) (td : Thread) (name : String)
    (tbl : SegvTable) (hact : pax_segvguard_active_td td = true) :
    (pax_segvguard_check g td none name tbl).1 = EFAULT ∧
    (∀ v : Vnode, v.getattr = none →
      (pax_segvguard_check g td (some v) name tbl).1 = 0) ∧
    (pax_segvguard_check g td none name tbl).1 ≠ EPERM := by
  refine ⟨?_, ?_, ?_⟩
  · simp [pax_segvguard_check, hact]
  · intro v hv
    simp [pax_segvguard_check, hact, pax_segvguard_lookup, deriveKey, hv]
  · simp [pax_segvguard_check, hact, EFAULT, EPERM]

/-- Witness for the amended claim C5 at a concrete active thread, empty
table, missing vnode and failing attribute retrieval. -/
theorem check_missing_conditions_witness :
    pax_segvguard_active_td td0 = true ∧
    (pax_segvguard_check g0 td0 none "a.out" emptyTbl).1 = EFAULT ∧
    (pax_segvguard_check g0 td0 (some ⟨none, "/"⟩) "a.out" emptyTbl).1 = 0 :=
  ⟨by decide, (check_missing_conditions g0 td0 "a.out" emptyTbl (by decide)).1,
    (check_missing_conditions g0 td0 "a.out" emptyTbl (by decide)).2.1 ⟨none, "/"⟩ rfl⟩

/-- Claim C1 evaluated at its failing input: the table holds the record
`e1` whose crash count (1) is at the containing scope's configured
threshold (`cfg1.maxcrashes = 1`), identity derivation succeeds, yet
`pax_segvguard_check` allows (returns 0, logging nothing), because the
code compares against the global `pax_segvguard_maxcrashes` (5 in
`g0`), not the scope's threshold. -/
theorem check_uses_global_threshold_cex :
    e1.se_ncrashes ≥ cfg1.maxcrashes ∧
    (pax_segvguard_check g0 td0 (some v0) "a.out" tbl1).1 = 0 ∧
    (pax_segvguard_check g0 td0 (some v0) "a.out" tbl1).2.2 = [] := by decide

/-- Claim C3 evaluated at its failing input: a crash brings the record
for `k0` from count 1 to count 2, which reaches the containing scope's
threshold (`cfg3.maxcrashes = 2`), yet the countdown is left at the
armed expiry value (it is not re-armed to `cfg3.suspension * hz`) and
no suspension is logged, because the code compares the count against
the global `pax_segvguard_maxcrashes` (5 in `g0`). -/
theorem segfault_uses_global_threshold_cex :
    e1.se_ncrashes + 1 ≥ cfg3.maxcrashes ∧
    (pax_segvguard_segfault g0 cfg3 td0 "a.out" true tbl1).2.1
      = emptyTbl.set (keyBucket k0) [⟨0, 7, strN "/", 2, PAX_SEGVGUARD_EXPIRY * hz⟩] ∧
    (pax_segvguard_segfault g0 cfg3 td0 "a.out" true tbl1).2.2 = [] ∧
    PAX_SEGVGUARD_EXPIRY * hz ≠ cfg3.suspension * hz := by decide

/-- Claim C7: every input to mode-flag validation outside the four
recognized modes is coerced to `PAX_FEATURE_FORCE_ENABLED` (never
accepted as-is, never rejected) while the four recognized values pass
through unchanged, and the boot-time status coercion in
`pax_segvguard_sysinit` behaves the same, additionally emitting a
warning exactly on invalid input. -/
theorem validate_flags_spec (f : Int) :
    ((f = PAX_FEATURE_DISABLED ∨ f = PAX_FEATURE_OPTIN ∨ f = PAX_FEATURE_OPTOUT ∨
        f = PAX_FEATURE_FORCE_ENABLED) →
      pax_segvguard_validate_flags f = f ∧ pax_segvguard_sysinit_status f = (f, false)) ∧
    ((f ≠ PAX_FEATURE_DISABLED ∧ f ≠ PAX_FEATURE_OPTIN ∧ f ≠ PAX_FEATURE_OPTOUT ∧
        f ≠ PAX_FEATURE_FORCE_ENABLED) →
      pax_segvguard_validate_flags f = PAX_FEATURE_FORCE_ENABLED ∧
      pax_segvguard_sysinit_status f = (PAX_FEATURE_FORCE_ENABLED, true)) := by
  constructor
  · intro h
    simp [pax_segvguard_validate_flags, pax_segvguard_sysinit_status, h]
  · rintro ⟨h1, h2, h3, h4⟩
    simp [pax_segvguard_validate_flags, pax_segvguard_sysinit_status, h1, h2, h3, h4]

/-- Witness for claim C7 at the invalid value 7 and the valid value
`PAX_FEATURE_OPTOUT`. -/
theorem validate_flags_spec_witness :
    pax_segvguard_validate_flags 7 = PAX_FEATURE_FORCE_ENABLED ∧
    pax_segvguard_sysinit_status 7 = (PAX_FEATURE_FORCE_ENABLED, true) ∧
    pax_segvguard_validate_flags PAX_FEATURE_OPTOUT = PAX_FEATURE_OPTOUT :=
  ⟨((validate_flags_spec 7).2 (by decide)).1, ((validate_flags_spec 7).2 (by decide)).2,
    ((validate_flags_spec PAX_FEATURE_OPTOUT).1 (by decide)).1⟩

/-- Claim C8: when record allocation fails, `pax_segvguard_add` returns
`none` and leaves the table unchanged, and the crash-recording entry
point `pax_segvguard_segfault` still completes without error (returns
0, table unchanged, nothing logged) — the crash simply is not
tracked. -/
theorem segfault_alloc_failure (g : SegvGlobals) (pr : HbsdSegvguardCfg) (td : Thread)
    (name : String) (tbl : SegvTable) (v : Vnode)
    (hact : pax_segvguard_active_td td = true) (hvp : td.textvp = some v)
    (hlk : pax_segvguard_lookup td v tbl = none) :
    pax_segvguard_add td v pr false tbl = (none, tbl) ∧
    pax_segvguard_segfault g pr td name false tbl = (0, tbl, []) := by
  constructor
  · simp [pax_segvguard_add]
  · simp [pax_segvguard_segfault, hact, hvp, hlk, pax_segvguard_add]

/-- Witness for claim C8 at an active thread crashing on `v0` over the
empty table with allocation failing. -/
theorem segfault_alloc_failure_witness :
    pax_segvguard_active_td td0 = true ∧ td0.textvp = some v0 ∧
    pax_segvguard_lookup td0 v0 emptyTbl = none ∧
    pax_segvguard_segfault g0 pr0 td0 "a.out" false emptyTbl = (0, emptyTbl, []) :=
  ⟨by decide, rfl, by decide,
    (segfault_alloc_failure g0 pr0 td0 "a.out" emptyTbl v0 (by decide) rfl (by decide)).2⟩

/-- Claim C9: when the thread's execution policy flags contain both the
guard-active and guard-inactive bits the guard is treated as active
(the guard-active bit is tested first and takes precedence), and when
they contain neither bit the guard also defaults to active. -/
theorem active_td_default (td : Thread) :
    ((td.p_pax &&& PAX_NOTE_SEGVGUARD = PAX_NOTE_SEGVGUARD ∧
      td.p_pax &&& PAX_NOTE_NOSEGVGUARD = PAX_NOTE_NOSEGVGUARD) →
        pax_segvguard_active_td td = true) ∧
    ((td.p_pax &&& PAX_NOTE_SEGVGUARD ≠ PAX_NOTE_SEGVGUARD ∧
      td.p_pax &&& PAX_NOTE_NOSEGVGUARD ≠ PAX_NOTE_NOSEGVGUARD) →
        pax_segvguard_active_td td = true) := by
  constructor <;> rintro ⟨h1, h2⟩ <;> simp [pax_segvguard_active_td, h1, h2]

/-- Witness for claim C9 at flags with both bits set and flags with
neither bit set. -/
theorem active_td_default_witness :
    pax_segvguard_active_td ⟨PAX_NOTE_SEGVGUARD ||| PAX_NOTE_NOSEGVGUARD, 0, none, 1⟩ = true ∧
    pax_segvguard_active_td ⟨0, 0, none, 1⟩ = true :=
  ⟨(active_td_default ⟨PAX_NOTE_SEGVGUARD ||| PAX_NOTE_NOSEGVGUARD, 0, none, 1⟩).1
      ⟨by decide, by decide⟩,
    (active_td_default ⟨0, 0, none, 1⟩).2 ⟨by decide, by decide⟩⟩

/-- Claim C10: the exec-time check never mutates the record table: for
every call, whatever the outcome, `pax_segvguard_check` returns the
table it was given. -/
theorem check_table_frame (g : SegvGlobals) (td : Thread) (vOpt : Option Vnode)
    (name : String) (tbl : SegvTable) :
    (pax_segvguard_check g td vOpt name tbl).2.1 = tbl := by
  by_cases h : pax_segvguard_active_td td = false
  · simp [pax_segvguard_check, h]
  · cases vOpt with
    | none => simp [pax_segvguard_check, h]
    | some v =>
      cases hlk : pax_segvguard_lookup td v tbl with
      | none => simp [pax_segvguard_check, h, hlk]
      | some p =>
        obtain ⟨k, se⟩ := p
        by_cases hc : se.se_ncrashes ≥ g.maxcrashes <;>
          simp [pax_segvguard_check, h, hlk, hc]

end HbsdSegvguard
